import Mathlib

set_option maxHeartbeats 1000000
set_option maxRecDepth 4000
set_option linter.unusedVariables false
set_option linter.unusedTactic false

/-!
Verification of the LightWare GRF-250 serial protocol engine
(`serial_c_api/lw_serial_api.c`): the 16-bit checksum, the packet
builder, the byte-at-a-time response decoder state machine, and the
request/response orchestrator with its timeout and retry policy.

Machine integers are modelled as `Nat` with explicit `% 2^16` /
`% 2^32` truncation where the C code can overflow; the fixed-size
receive buffer is a `List Nat` of length `LW_PACKET_RECV_SIZE` mutated
with `List.set`; the transport callbacks (clock, serial receive,
serial send) are oracles indexed by call number, and the potentially
non-terminating orchestrator loops take a fuel argument and return
`Option`.
-/

-- ----------------------------------------------------------------------------
-- Result codes and constants (`lw_serial_api.h`).
-- ----------------------------------------------------------------------------

/-- Result codes of the serial API (C enum `lw_result`). -/
inductive lw_result where
  | LW_RESULT_SUCCESS
  | LW_RESULT_ERROR
  | LW_RESULT_AGAIN
  | LW_RESULT_TIMEOUT
  | LW_RESULT_EXCEEDED_RETRIES
  | LW_RESULT_INVALID_PARAMETER
  | LW_RESULT_INCORRECT_COMMAND_ID
deriving DecidableEq, Repr

/-- C macro `LW_PACKET_START_BYTE` (0xAA). -/
def LW_PACKET_START_BYTE : Nat := 0xAA

/-- C macro `LW_PACKET_RECV_SIZE` (64, the default without `LW_LARGE_PACKETS`). -/
def LW_PACKET_RECV_SIZE : Nat := 64

/-- C macro `LW_REQUEST_RETRIES`. -/
def LW_REQUEST_RETRIES : Nat := 4

/-- C macro `LW_RESPONSE_TIMEOUT_MS`. -/
def LW_RESPONSE_TIMEOUT_MS : Nat := 1000

/-- C macro `LW_ANY_COMMAND` (255). -/
def LW_ANY_COMMAND : Nat := 255

/-- Decoder states (C enum `lw_packet_parse_state`). -/
inductive lw_packet_parse_state where
  | LW_PARSESTATE_START
  | LW_PARSESTATE_FLAGS1
  | LW_PARSESTATE_FLAGS2
  | LW_PARSESTATE_PAYLOAD
  | LW_PARSESTATE_DONE
deriving DecidableEq, Repr

/-- The response accumulator (C struct `lw_response`): a fixed-capacity
byte buffer plus decode progress.  `data` always has length
`LW_PACKET_RECV_SIZE` for states built by the API. -/
structure lw_response where
  data : List Nat
  data_size : Nat
  payload_size : Nat
  parse_state : lw_packet_parse_state
  command_id : Nat
deriving DecidableEq, Repr

-- ----------------------------------------------------------------------------
-- Checksum (`lw_create_crc`).
-- ----------------------------------------------------------------------------

/-- One iteration of the loop body of C `lw_create_crc`, on 16-bit
registers modelled as `Nat` truncated with `% 65536` at each
assignment that can overflow.  Note the C source shifts `code` in
place: the final xor uses `(code <<< 5) <<< 7`. -/
def lw_create_crc_step (crc b : Nat) : Nat :=
  let code := crc >>> 8
  let code := code ^^^ b
  let code := code ^^^ (code >>> 4)
  let crc := (crc <<< 8) % 65536
  let crc := crc ^^^ code
  let code := (code <<< 5) % 65536
  let crc := crc ^^^ code
  let code := (code <<< 7) % 65536
  let crc := crc ^^^ code
  crc

/-- C `lw_create_crc`: fold the step over the bytes starting from 0. -/
def lw_create_crc (data : List Nat) : Nat :=
  data.foldl lw_create_crc_step 0

/-- One iteration of the checksum algorithm exactly as written in spec
section 4.1 (and restated by claim C1): steps 4 and 5 both shift the
*original* `code` of step 2, by 5 and by 7 bits, each shift truncated
to 16 bits. -/
def crc_spec_section41_step (crc b : Nat) : Nat :=
  let code := (crc >>> 8) ^^^ b
  let code := code ^^^ (code >>> 4)
  let crc := ((crc <<< 8) % 65536) ^^^ code
  let crc := crc ^^^ ((code <<< 5) % 65536)
  let crc := crc ^^^ ((code <<< 7) % 65536)
  crc

/-- The checksum algorithm exactly as written in spec section 4.1. -/
def crc_spec_section41 (data : List Nat) : Nat :=
  data.foldl crc_spec_section41_step 0

/-- Spec section 4.1 with the one correction the source forces: the
second shift applies to the already-shifted `code`, so step 5 is
`crc = crc XOR (code << 12)` (truncating). -/
def crc_spec_section41_fixed_step (crc b : Nat) : Nat :=
  let code := (crc >>> 8) ^^^ b
  let code := code ^^^ (code >>> 4)
  let crc := ((crc <<< 8) % 65536) ^^^ code
  let crc := crc ^^^ ((code <<< 5) % 65536)
  let crc := crc ^^^ ((code <<< 12) % 65536)
  crc

/-- Spec section 4.1 amended: fold of the corrected step. -/
def crc_spec_section41_fixed (data : List Nat) : Nat :=
  data.foldl crc_spec_section41_fixed_step 0

-- ----------------------------------------------------------------------------
-- Decoder (`lw_init_response`, `lw_feed_response`).
-- ----------------------------------------------------------------------------

/-- C `lw_init_response`: resets the bookkeeping fields, leaves the
byte buffer as is (`command_id` is set to `UINT8_MAX`). -/
def lw_init_response (response : lw_response) : lw_response :=
  { response with
    data_size := 0
    payload_size := 0
    parse_state := .LW_PARSESTATE_START
    command_id := 255 }

/-- C `lw_feed_response`: feed one byte to the decoder.  Returns the
updated accumulator and the result code.  A `DONE` accumulator is
re-initialized before the switch, so the `DONE` switch arm (which
returns `LW_RESULT_ERROR`) is never taken. -/
def lw_feed_response (response : lw_response) (b : Nat) : lw_response × lw_result :=
  let response :=
    if response.parse_state = .LW_PARSESTATE_DONE then lw_init_response response
    else response
  match response.parse_state with
  | .LW_PARSESTATE_START =>
      if b = LW_PACKET_START_BYTE then
        ({ response with
           parse_state := .LW_PARSESTATE_FLAGS1
           data := response.data.set 0 LW_PACKET_START_BYTE }, .LW_RESULT_AGAIN)
      else
        (response, .LW_RESULT_AGAIN)
  | .LW_PARSESTATE_FLAGS1 =>
      ({ response with
         parse_state := .LW_PARSESTATE_FLAGS2
         data := response.data.set 1 b }, .LW_RESULT_AGAIN)
  | .LW_PARSESTATE_FLAGS2 =>
      let d := response.data.set 2 b
      let psize := ((d.getD 1 0) ||| ((d.getD 2 0) <<< 8)) >>> 6
      let r := { response with
                 parse_state := .LW_PARSESTATE_PAYLOAD
                 data := d
                 data_size := 3
                 payload_size := psize }
      if psize > LW_PACKET_RECV_SIZE - 5 ∨ psize < 1 then
        ({ r with parse_state := .LW_PARSESTATE_START }, .LW_RESULT_AGAIN)
      else
        (r, .LW_RESULT_AGAIN)
  | .LW_PARSESTATE_PAYLOAD =>
      let d := response.data.set response.data_size b
      let ds := response.data_size + 1
      let r := { response with data := d, data_size := ds }
      if ds = response.payload_size + 5 then
        let crc := (d.getD (ds - 2) 0) ||| ((d.getD (ds - 1) 0) <<< 8)
        let verify_crc := lw_create_crc (d.take (ds - 2))
        if crc = verify_crc then
          ({ r with
             parse_state := .LW_PARSESTATE_DONE
             command_id := d.getD 3 0 }, .LW_RESULT_SUCCESS)
        else
          ({ r with parse_state := .LW_PARSESTATE_START }, .LW_RESULT_AGAIN)
      else
        (r, .LW_RESULT_AGAIN)
  | .LW_PARSESTATE_DONE =>
      (response, .LW_RESULT_ERROR)

/-- A freshly constructed response: a zeroed fixed-capacity buffer run
through `lw_init_response`. -/
def initial_response : lw_response :=
  lw_init_response
    { data := List.replicate LW_PACKET_RECV_SIZE 0
      data_size := 0
      payload_size := 0
      parse_state := .LW_PARSESTATE_START
      command_id := 255 }

/-- Feed a list of bytes one at a time, collecting the per-byte result
codes in order. -/
def lw_feed_list (r : lw_response) (bytes : List Nat) : lw_response × List lw_result :=
  match bytes with
  | [] => (r, [])
  | b :: rest =>
      let fed := lw_feed_response r b
      let next := lw_feed_list fed.1 rest
      (next.1, fed.2 :: next.2)

-- ----------------------------------------------------------------------------
-- Packet builder / payload extraction (`lw_create_packet`, `lw_parse_packet_data`).
-- ----------------------------------------------------------------------------

/-- C `lw_create_packet`: returns the bytes written to the packet
buffer (the C function fills a caller buffer and returns the count
`6 + data_size`; here the byte list itself is returned, its length is
that count).  The two flags bytes and the two checksum bytes are the
little-endian halves of the respective 16-bit values. -/
def lw_create_packet (command_id : Nat) (write : Nat) (data : List Nat) : List Nat :=
  let payload_length := 1 + data.length
  let flags := ((payload_length <<< 6) ||| (write &&& 1)) % 65536
  let front := [LW_PACKET_START_BYTE, flags % 256, (flags >>> 8) % 256, command_id] ++ data
  let crc := lw_create_crc front
  front ++ [crc % 256, (crc >>> 8) % 256]

/-- C `lw_parse_packet_data`: copy `size` bytes starting `offset`
bytes after the 4-byte header. -/
def lw_parse_packet_data (packet_buffer : List Nat) (size offset : Nat) : List Nat :=
  (packet_buffer.drop (4 + offset)).take size

-- ----------------------------------------------------------------------------
-- Claim C1: the checksum versus spec section 4.1.
-- ----------------------------------------------------------------------------

/-- Chaining a truncated shift by 5 and then by 7 equals a truncated
shift by 12. -/
theorem shiftLeft_five_seven_eq_twelve (x : Nat) :
    (((x <<< 5) % 65536) <<< 7) % 65536 = (x <<< 12) % 65536 := by
  simp only [Nat.shiftLeft_eq]
  rw [Nat.mod_mul_mod, mul_assoc]
  norm_num

/-- The loop body of `lw_create_crc` agrees with the corrected
section 4.1 step. -/
theorem lw_create_crc_step_eq_fixed (crc b : Nat) :
    lw_create_crc_step crc b = crc_spec_section41_fixed_step crc b := by
  simp only [lw_create_crc_step, crc_spec_section41_fixed_step]
  rw [shiftLeft_five_seven_eq_twelve]

/-- Claim C1, counterexample: on the single-byte input `[1]` the C
function `lw_create_crc` returns 4129 while the algorithm written in
spec section 4.1 returns 161, so the claimed bit-for-bit agreement is
false. -/
theorem lw_create_crc_ne_spec_section41_on_one :
    lw_create_crc [1] = 4129 ∧ crc_spec_section41 [1] = 161 ∧
      lw_create_crc [1] ≠ crc_spec_section41 [1] := by
  refine ⟨rfl, rfl, ?_⟩
  decide

/-- Claim C1, amended: `lw_create_crc` computes, for every byte
sequence, exactly the section 4.1 algorithm with step 5 corrected to
shift the already-shifted code by a further 7 bits, i.e.
`crc = crc XOR (code << 12)` in truncating 16-bit arithmetic. -/
theorem lw_create_crc_eq_spec_section41_fixed (data : List Nat) :
    lw_create_crc data = crc_spec_section41_fixed data := by
  unfold lw_create_crc crc_spec_section41_fixed
  congr 1
  funext crc b
  exact lw_create_crc_step_eq_fixed crc b

-- ----------------------------------------------------------------------------
-- Claim C2: the concrete command-5 read packet.
-- ----------------------------------------------------------------------------

/-- Claim C2, counterexample: the six bytes produced by
`lw_create_packet` for command id 5, write flag 0, empty payload are
not the bytes with the section 4.1 checksum appended (the code's
checksum over `[0xAA,0x40,0x00,0x05]` is 0xCFD5 while section 4.1
yields 0xD74C), and feeding the six bytes with the section 4.1
checksum to a fresh decoder never reports ready. -/
theorem lw_create_packet_cmd5_ne_spec_crc_bytes :
    lw_create_packet 5 0 [] ≠
      [0xAA, 0x40, 0x00, 0x05,
        crc_spec_section41 [0xAA, 0x40, 0x00, 0x05] % 256,
        (crc_spec_section41 [0xAA, 0x40, 0x00, 0x05] >>> 8) % 256] ∧
    (lw_feed_list initial_response
      [0xAA, 0x40, 0x00, 0x05,
        crc_spec_section41 [0xAA, 0x40, 0x00, 0x05] % 256,
        (crc_spec_section41 [0xAA, 0x40, 0x00, 0x05] >>> 8) % 256]).2 =
      List.replicate 6 .LW_RESULT_AGAIN := by
  constructor
  · decide
  · decide

/-- Claim C2, amended: for command id 5, write flag 0, empty payload,
`lw_create_packet` produces exactly `[0xAA, 0x40, 0x00, 0x05, crcLo,
crcHi]` where `crcLo,crcHi` is the little-endian checksum of
`[0xAA,0x40,0x00,0x05]` computed by `lw_create_crc` (the code's
checksum, which corrects section 4.1 as in claim C1), and feeding
these six bytes one at a time to a fresh decoder reports
`LW_RESULT_SUCCESS` exactly on the sixth byte with recorded command
id 5. -/
theorem lw_create_packet_cmd5_roundtrip :
    lw_create_packet 5 0 [] =
      [0xAA, 0x40, 0x00, 0x05,
        lw_create_crc [0xAA, 0x40, 0x00, 0x05] % 256,
        (lw_create_crc [0xAA, 0x40, 0x00, 0x05] >>> 8) % 256] ∧
    (lw_feed_list initial_response (lw_create_packet 5 0 [])).2 =
      [.LW_RESULT_AGAIN, .LW_RESULT_AGAIN, .LW_RESULT_AGAIN,
        .LW_RESULT_AGAIN, .LW_RESULT_AGAIN, .LW_RESULT_SUCCESS] ∧
    (lw_feed_list initial_response (lw_create_packet 5 0 [])).1.command_id = 5 := by
  refine ⟨by decide, by decide, by decide⟩

-- ----------------------------------------------------------------------------
-- Bit-arithmetic helpers for the flags and checksum bytes.
-- ----------------------------------------------------------------------------

/-- A left shift or-ed with a value below the shift width is an
addition. -/
theorem shiftLeft_lor_eq_add {b k : Nat} (a : Nat) (hb : b < 2 ^ k) :
    (a <<< k) ||| b = 2 ^ k * a + b := by
  refine Nat.eq_of_testBit_eq fun i => ?_
  rw [Nat.testBit_lor, Nat.testBit_shiftLeft, Nat.testBit_mul_pow_two_add a hb i]
  rcases Nat.lt_or_ge i k with h | h
  · have h2 : ¬(i ≥ k) := Nat.not_le.mpr h
    simp [h, h2]
  · have hbf : b.testBit i = false :=
      Nat.testBit_lt_two_pow
        (lt_of_lt_of_le hb (Nat.pow_le_pow_right (by norm_num) h))
    have h2 : ¬(i < k) := Nat.not_lt.mpr h
    simp [h, h2, hbf, ge_iff_le]

/-- Reassembling a 16-bit value from its little-endian bytes. -/
theorem lor_bytes_reconstruct (c : Nat) (hc : c < 65536) :
    (c % 256) ||| (((c >>> 8) % 256) <<< 8) = c := by
  have hdiv : c >>> 8 = c / 256 := by
    rw [Nat.shiftRight_eq_div_pow]
  have hlt : c / 256 < 256 := by omega
  have hmod : (c / 256) % 256 = c / 256 := Nat.mod_eq_of_lt hlt
  rw [hdiv, hmod, Nat.lor_comm, shiftLeft_lor_eq_add (c / 256) (by omega : c % 256 < 2 ^ 8)]
  norm_num
  omega

/-- The flags word built by `lw_create_packet` as plain arithmetic. -/
theorem flags_eq (plen w : Nat) (h59 : plen ≤ 59) :
    ((plen <<< 6) ||| (w &&& 1)) % 65536 = 64 * plen + w % 2 := by
  rw [Nat.and_one_is_mod, shiftLeft_lor_eq_add plen (by omega : w % 2 < 2 ^ 6)]
  norm_num
  omega

-- ----------------------------------------------------------------------------
-- List helpers for the fixed-capacity buffer.
-- ----------------------------------------------------------------------------

/-- Reading back the element just written with `List.set`. -/
theorem getD_set_self (d : List Nat) (i x : Nat) (h : i < d.length) :
    (d.set i x).getD i 0 = x := by
  induction d generalizing i with
  | nil => simp at h
  | cons a t ih =>
      cases i with
      | zero => rfl
      | succ n => exact ih n (by simpa using h)

/-- `List.set` leaves other positions unchanged. -/
theorem getD_set_ne (d : List Nat) (i j x : Nat) (h : i ≠ j) :
    (d.set i x).getD j 0 = d.getD j 0 := by
  induction d generalizing i j with
  | nil => rfl
  | cons a t ih =>
      cases i with
      | zero =>
          cases j with
          | zero => exact absurd rfl h
          | succ m => rfl
      | succ n =>
          cases j with
          | zero => rfl
          | succ m => exact ih n m (by omega)

/-- A `take` below the written index ignores a `List.set`. -/
theorem take_set_of_le (d : List Nat) (i j x : Nat) (h : j ≤ i) :
    (d.set i x).take j = d.take j := by
  induction d generalizing i j with
  | nil => rfl
  | cons a t ih =>
      cases i with
      | zero =>
          cases j with
          | zero => rfl
          | succ m => omega
      | succ n =>
          cases j with
          | zero => rfl
          | succ m => simp [List.set, ih n m (by omega)]

/-- Extending a `take` by one position via `getD`. -/
theorem take_succ_getD (d : List Nat) (n : Nat) (h : n < d.length) :
    d.take (n + 1) = d.take n ++ [d.getD n 0] := by
  induction d generalizing n with
  | nil => simp at h
  | cons a t ih =>
      cases n with
      | zero => rfl
      | succ m => simp [List.take_succ_cons, ih m (by simpa using h), List.getD_cons_succ]

/-- `getD` inside the taken region. -/
theorem getD_take (d : List Nat) (n j : Nat) (h : j < n) :
    (d.take n).getD j 0 = d.getD j 0 := by
  induction d generalizing n j with
  | nil => simp
  | cons a t ih =>
      cases n with
      | zero => omega
      | succ m =>
          cases j with
          | zero => rfl
          | succ i => simpa using ih m i (by omega)

/-- `getD` in the left part of an append. -/
theorem getD_append_left (xs ys : List Nat) (j : Nat) (h : j < xs.length) :
    (xs ++ ys).getD j 0 = xs.getD j 0 := by
  induction xs generalizing j with
  | nil => simp at h
  | cons a t ih =>
      cases j with
      | zero => rfl
      | succ m => simp only [List.cons_append, List.getD_cons_succ]; exact ih m (by simpa using h)

/-- `getD` at the seam of an append. -/
theorem getD_append_length (xs : List Nat) (v : Nat) (ys : List Nat) :
    (xs ++ v :: ys).getD xs.length 0 = v := by
  induction xs with
  | nil => rfl
  | cons a t ih => simpa using ih

/-- Taking exactly the left part of an append. -/
theorem take_append_length (xs ys : List Nat) :
    (xs ++ ys).take xs.length = xs := by
  induction xs with
  | nil => rfl
  | cons a t ih => simp [ih]

-- ----------------------------------------------------------------------------
-- Checksum range.
-- ----------------------------------------------------------------------------

/-- One checksum step keeps the 16-bit accumulator in range when fed a
byte. -/
theorem lw_create_crc_step_lt (crc b : Nat) (hc : crc < 65536) (hb : b < 256) :
    lw_create_crc_step crc b < 65536 := by
  simp only [lw_create_crc_step]
  have hx8 : ∀ x y : Nat, x < 256 → y < 256 → x ^^^ y < 256 := by
    intro x y hx hy
    have h : (256 : Nat) = 2 ^ 8 := by norm_num
    rw [h] at hx hy ⊢
    exact Nat.xor_lt_two_pow hx hy
  have hx16 : ∀ x y : Nat, x < 65536 → y < 65536 → x ^^^ y < 65536 := by
    intro x y hx hy
    have h : (65536 : Nat) = 2 ^ 16 := by norm_num
    rw [h] at hx hy ⊢
    exact Nat.xor_lt_two_pow hx hy
  have h0 : crc >>> 8 < 256 := by
    have h := Nat.shiftRight_eq_div_pow crc 8
    have h2 : (2 : Nat) ^ 8 = 256 := by norm_num
    rw [h2] at h
    omega
  have h1 : (crc >>> 8) ^^^ b < 256 := hx8 _ _ h0 hb
  have h14 : ((crc >>> 8) ^^^ b) >>> 4 < 256 := by
    have h := Nat.shiftRight_eq_div_pow ((crc >>> 8) ^^^ b) 4
    have h2 : (2 : Nat) ^ 4 = 16 := by norm_num
    rw [h2] at h
    omega
  have hcode : ((crc >>> 8) ^^^ b) ^^^ (((crc >>> 8) ^^^ b) >>> 4) < 256 := hx8 _ _ h1 h14
  have hmod : (crc <<< 8) % 65536 < 65536 := Nat.mod_lt _ (by norm_num)
  refine hx16 _ _ (hx16 _ _ (hx16 _ _ hmod (by omega)) ?_) ?_
  · exact Nat.mod_lt _ (by norm_num)
  · exact Nat.mod_lt _ (by norm_num)

/-- The checksum accumulator stays in 16-bit range over any byte
list. -/
theorem lw_create_crc_foldl_lt (data : List Nat) :
    ∀ crc, (∀ b ∈ data, b < 256) → crc < 65536 →
      List.foldl lw_create_crc_step crc data < 65536 := by
  induction data with
  | nil => intro crc _ hc; simpa using hc
  | cons a t ih =>
      intro crc h hc
      simp only [List.foldl_cons]
      exact ih _ (fun b hb => h b (List.mem_cons_of_mem _ hb))
        (lw_create_crc_step_lt crc a hc (h a (List.mem_cons_self _ _)))

/-- The checksum of a byte list is a 16-bit value. -/
theorem lw_create_crc_lt (data : List Nat) (h : ∀ b ∈ data, b < 256) :
    lw_create_crc data < 65536 :=
  lw_create_crc_foldl_lt data 0 h (by norm_num)

-- ----------------------------------------------------------------------------
-- Consecutive buffer writes, as performed by the payload phase.
-- ----------------------------------------------------------------------------

/-- Write the bytes `bs` into `d` at consecutive indices starting at
`i` (the sequence of `List.set` calls the payload phase performs). -/
def lw_write_bytes (d : List Nat) (i : Nat) (bs : List Nat) : List Nat :=
  match bs with
  | [] => d
  | b :: rest => lw_write_bytes (d.set i b) (i + 1) rest

/-- Consecutive writes preserve the buffer length. -/
theorem lw_write_bytes_length (bs : List Nat) :
    ∀ d i, (lw_write_bytes d i bs).length = d.length := by
  induction bs with
  | nil => intro d i; rfl
  | cons b rest ih =>
      intro d i
      rw [lw_write_bytes, ih, List.length_set]

/-- The written region read back: taking up to the end of the written
range yields the untouched front followed by the written bytes. -/
theorem lw_write_bytes_take (bs : List Nat) :
    ∀ d i, i + bs.length ≤ d.length →
      (lw_write_bytes d i bs).take (i + bs.length) = d.take i ++ bs := by
  induction bs with
  | nil => intro d i _; simp [lw_write_bytes]
  | cons b rest ih =>
      intro d i h
      have h2 : i + (rest.length + 1) ≤ d.length := by simpa using h
      have hi : i < d.length := by omega
      have harith : i + (b :: rest).length = (i + 1) + rest.length := by
        simp only [List.length_cons]; omega
      rw [lw_write_bytes, harith,
        ih (d.set i b) (i + 1) (by rw [List.length_set]; omega)]
      rw [take_succ_getD (d.set i b) i (by rw [List.length_set]; exact hi),
        getD_set_self d i b hi, take_set_of_le d i i b (le_refl i)]
      simp

-- ----------------------------------------------------------------------------
-- Feeding byte lists: composition.
-- ----------------------------------------------------------------------------

/-- `lw_feed_list` over a concatenation is fed in two stages. -/
theorem lw_feed_list_append (xs ys : List Nat) :
    ∀ r, lw_feed_list r (xs ++ ys) =
      ((lw_feed_list (lw_feed_list r xs).1 ys).1,
        (lw_feed_list r xs).2 ++ (lw_feed_list (lw_feed_list r xs).1 ys).2) := by
  induction xs with
  | nil => intro r; simp [lw_feed_list]
  | cons b rest ih =>
      intro r
      rw [List.cons_append]
      simp only [lw_feed_list]
      rw [ih]
      simp

/-- While the accumulated count stays strictly below
`payload_size + 5`, the payload phase stores each fed byte at the next
index, reports `LW_RESULT_AGAIN` each time, and stays in the payload
state. -/
theorem lw_feed_payload_chunk (bs : List Nat) :
    ∀ r : lw_response, r.parse_state = .LW_PARSESTATE_PAYLOAD →
      r.data_size + bs.length ≤ r.payload_size + 4 →
      lw_feed_list r bs =
        ({ r with
            data := lw_write_bytes r.data r.data_size bs
            data_size := r.data_size + bs.length },
          List.replicate bs.length .LW_RESULT_AGAIN) := by
  induction bs with
  | nil =>
      intro r _ _
      simp [lw_feed_list, lw_write_bytes]
  | cons b rest ih =>
      intro r hstate hsize
      obtain ⟨dta, dsz, psz, pst, cid⟩ := r
      have hs2 : pst = .LW_PARSESTATE_PAYLOAD := hstate
      subst hs2
      have hsz2 : dsz + (rest.length + 1) ≤ psz + 4 := by simpa using hsize
      have hne : ¬(dsz + 1 = psz + 5) := by omega
      simp only [lw_feed_list, lw_feed_response, reduceCtorEq, if_false, hne, if_neg,
        reduceIte]
      rw [ih { data := dta.set dsz b, data_size := dsz + 1, payload_size := psz,
               parse_state := .LW_PARSESTATE_PAYLOAD, command_id := cid }
            rfl (by show dsz + 1 + rest.length ≤ psz + 4; omega)]
      simp only [lw_write_bytes, List.length_cons, List.replicate_succ]
      have harith : dsz + 1 + rest.length = dsz + (rest.length + 1) := by omega
      rw [harith]

/-- One-step unfolding of `lw_feed_list` on an empty list. -/
theorem lw_feed_list_nil (r : lw_response) : lw_feed_list r [] = (r, []) := rfl

/-- One-step unfolding of `lw_feed_list` on a cons. -/
theorem lw_feed_list_cons (r : lw_response) (b : Nat) (bs : List Nat) :
    lw_feed_list r (b :: bs) =
      ((lw_feed_list (lw_feed_response r b).1 bs).1,
        (lw_feed_response r b).2 :: (lw_feed_list (lw_feed_response r b).1 bs).2) := rfl

/-- Taking the first three positions after the three header writes. -/
theorem take3_set012 (d : List Nat) (x y z : Nat) (h : 3 ≤ d.length) :
    (((d.set 0 x).set 1 y).set 2 z).take 3 = [x, y, z] := by
  cases d with
  | nil => simp at h
  | cons a t =>
      cases t with
      | nil => simp at h
      | cons b t2 =>
          cases t2 with
          | nil => simp at h
          | cons c rest => rfl

/-- Feeding one full well-formed wire packet
`[0xAA, fLo, fHi, cid, payload…, cLo, cHi]` to a decoder in the start
state: every byte but the last reports `LW_RESULT_AGAIN`, the last
reports `LW_RESULT_SUCCESS`, and the final accumulator is `DONE` with
the packet bytes stored and the command id recorded. -/
theorem lw_feed_wire_packet (fLo fHi cidb cLo cHi : Nat) (payload : List Nat)
    (r : lw_response)
    (hstate : r.parse_state = .LW_PARSESTATE_START)
    (hdlen : r.data.length = 64)
    (hplen : payload.length ≤ 58)
    (hpsize : (fLo ||| (fHi <<< 8)) >>> 6 = 1 + payload.length)
    (hcrc : cLo ||| (cHi <<< 8) = lw_create_crc (170 :: fLo :: fHi :: cidb :: payload)) :
    (lw_feed_list r (170 :: fLo :: fHi :: cidb :: (payload ++ [cLo, cHi]))).2 =
        List.replicate (5 + payload.length) .LW_RESULT_AGAIN ++ [.LW_RESULT_SUCCESS] ∧
    (lw_feed_list r (170 :: fLo :: fHi :: cidb :: (payload ++ [cLo, cHi]))).1.parse_state =
        .LW_PARSESTATE_DONE ∧
    (lw_feed_list r (170 :: fLo :: fHi :: cidb :: (payload ++ [cLo, cHi]))).1.command_id = cidb ∧
    (lw_feed_list r (170 :: fLo :: fHi :: cidb :: (payload ++ [cLo, cHi]))).1.data.take
        (payload.length + 6) = 170 :: fLo :: fHi :: cidb :: (payload ++ [cLo, cHi]) ∧
    (lw_feed_list r (170 :: fLo :: fHi :: cidb :: (payload ++ [cLo, cHi]))).1.data.length = 64 := by
  obtain ⟨dta, dsz, psz, pst, rcid⟩ := r
  have hp : pst = .LW_PARSESTATE_START := hstate
  subst hp
  have hdl : dta.length = 64 := hdlen
  -- the three header bytes
  have e1 : lw_feed_response ⟨dta, dsz, psz, .LW_PARSESTATE_START, rcid⟩ 170 =
      (⟨dta.set 0 170, dsz, psz, .LW_PARSESTATE_FLAGS1, rcid⟩, .LW_RESULT_AGAIN) := rfl
  have e2 : lw_feed_response ⟨dta.set 0 170, dsz, psz, .LW_PARSESTATE_FLAGS1, rcid⟩ fLo =
      (⟨(dta.set 0 170).set 1 fLo, dsz, psz, .LW_PARSESTATE_FLAGS2, rcid⟩, .LW_RESULT_AGAIN) := rfl
  have hg1 : (((dta.set 0 170).set 1 fLo).set 2 fHi).getD 1 0 = fLo := by
    rw [getD_set_ne _ _ _ _ (by omega)]
    exact getD_set_self _ _ _ (by rw [List.length_set]; omega)
  have hg2 : (((dta.set 0 170).set 1 fLo).set 2 fHi).getD 2 0 = fHi :=
    getD_set_self _ _ _ (by rw [List.length_set, List.length_set]; omega)
  have h59 : ¬(1 + payload.length > LW_PACKET_RECV_SIZE - 5 ∨ 1 + payload.length < 1) := by
    simp only [LW_PACKET_RECV_SIZE]
    omega
  have e3 : lw_feed_response ⟨(dta.set 0 170).set 1 fLo, dsz, psz, .LW_PARSESTATE_FLAGS2, rcid⟩ fHi =
      (⟨((dta.set 0 170).set 1 fLo).set 2 fHi, 3, 1 + payload.length,
        .LW_PARSESTATE_PAYLOAD, rcid⟩, .LW_RESULT_AGAIN) := by
    simp only [lw_feed_response, reduceCtorEq, reduceIte, hg1, hg2, hpsize]
    rw [if_neg h59]
  -- the payload phase: command id, payload bytes, low checksum byte
  have hd3len : (((dta.set 0 170).set 1 fLo).set 2 fHi).length = 64 := by
    simp [List.length_set, hdl]
  have hlen1 : (cidb :: (payload ++ [cLo])).length = payload.length + 2 := by simp
  have hchunk := lw_feed_payload_chunk (cidb :: (payload ++ [cLo]))
      ⟨((dta.set 0 170).set 1 fLo).set 2 fHi, 3, 1 + payload.length,
        .LW_PARSESTATE_PAYLOAD, rcid⟩ rfl
      (by simp only [hlen1]; omega)
  rw [hlen1] at hchunk
  have hPlen : (170 :: fLo :: fHi :: cidb :: payload).length = payload.length + 4 := by simp
  have htake4 : (lw_write_bytes (((dta.set 0 170).set 1 fLo).set 2 fHi) 3
        (cidb :: (payload ++ [cLo]))).take (payload.length + 5) =
      (170 :: fLo :: fHi :: cidb :: payload) ++ [cLo] := by
    have h := lw_write_bytes_take (cidb :: (payload ++ [cLo]))
        (((dta.set 0 170).set 1 fLo).set 2 fHi) 3
        (by rw [hlen1, hd3len]; omega)
    rw [hlen1] at h
    rw [show payload.length + 5 = 3 + (payload.length + 2) by omega, h,
      take3_set012 dta 170 fLo fHi (by omega)]
    simp
  have hd4len : (lw_write_bytes (((dta.set 0 170).set 1 fLo).set 2 fHi) 3
      (cidb :: (payload ++ [cLo]))).length = 64 := by
    rw [lw_write_bytes_length]
    exact hd3len
  have hgc1 : (lw_write_bytes (((dta.set 0 170).set 1 fLo).set 2 fHi) 3
      (cidb :: (payload ++ [cLo]))).getD (payload.length + 4) 0 = cLo := by
    rw [← getD_take _ (payload.length + 5) (payload.length + 4) (by omega), htake4,
      show payload.length + 4 = (170 :: fLo :: fHi :: cidb :: payload).length from hPlen.symm]
    exact getD_append_length _ cLo []
  have htake44 : (lw_write_bytes (((dta.set 0 170).set 1 fLo).set 2 fHi) 3
      (cidb :: (payload ++ [cLo]))).take (payload.length + 4) =
      170 :: fLo :: fHi :: cidb :: payload := by
    have h1 : ((lw_write_bytes (((dta.set 0 170).set 1 fLo).set 2 fHi) 3
        (cidb :: (payload ++ [cLo]))).take (payload.length + 5)).take (payload.length + 4) =
        (lw_write_bytes (((dta.set 0 170).set 1 fLo).set 2 fHi) 3
          (cidb :: (payload ++ [cLo]))).take (payload.length + 4) := by
      rw [List.take_take]
      congr 1
      omega
    rw [← h1, htake4,
      show payload.length + 4 = (170 :: fLo :: fHi :: cidb :: payload).length from hPlen.symm]
    exact take_append_length _ [cLo]
  have hgcid : (lw_write_bytes (((dta.set 0 170).set 1 fLo).set 2 fHi) 3
      (cidb :: (payload ++ [cLo]))).getD 3 0 = cidb := by
    rw [← getD_take _ (payload.length + 5) 3 (by omega), htake4]
    rw [getD_append_left _ _ 3 (by rw [hPlen]; omega)]
    rfl
  -- the final (high checksum) byte completes the packet
  have e5 : lw_feed_response ⟨lw_write_bytes (((dta.set 0 170).set 1 fLo).set 2 fHi) 3
        (cidb :: (payload ++ [cLo])), payload.length + 5, 1 + payload.length,
        .LW_PARSESTATE_PAYLOAD, rcid⟩ cHi =
      (⟨(lw_write_bytes (((dta.set 0 170).set 1 fLo).set 2 fHi) 3
          (cidb :: (payload ++ [cLo]))).set (payload.length + 5) cHi,
        payload.length + 5 + 1, 1 + payload.length, .LW_PARSESTATE_DONE, cidb⟩,
        .LW_RESULT_SUCCESS) := by
    simp only [lw_feed_response, reduceCtorEq, reduceIte]
    rw [if_pos (by omega : payload.length + 5 + 1 = 1 + payload.length + 5)]
    rw [show payload.length + 5 + 1 - 2 = payload.length + 4 by omega,
      show payload.length + 5 + 1 - 1 = payload.length + 5 by omega]
    rw [getD_set_ne _ _ _ _ (by omega), hgc1,
      getD_set_self _ _ _ (by rw [hd4len]; omega)]
    rw [take_set_of_le _ _ _ _ (by omega : payload.length + 4 ≤ payload.length + 5), htake44]
    rw [if_pos hcrc]
    rw [getD_set_ne _ _ _ _ (by omega), hgcid]
  -- assemble the whole run
  have hsplit : cidb :: (payload ++ [cLo, cHi]) = (cidb :: (payload ++ [cLo])) ++ [cHi] := by
    simp
  have hmain : lw_feed_list ⟨dta, dsz, psz, .LW_PARSESTATE_START, rcid⟩
      (170 :: fLo :: fHi :: cidb :: (payload ++ [cLo, cHi])) =
      (⟨(lw_write_bytes (((dta.set 0 170).set 1 fLo).set 2 fHi) 3
          (cidb :: (payload ++ [cLo]))).set (payload.length + 5) cHi,
        payload.length + 5 + 1, 1 + payload.length, .LW_PARSESTATE_DONE, cidb⟩,
        List.replicate (5 + payload.length) .LW_RESULT_AGAIN ++ [.LW_RESULT_SUCCESS]) := by
    rw [lw_feed_list_cons, e1, lw_feed_list_cons, e2, lw_feed_list_cons, e3, hsplit,
      lw_feed_list_append, hchunk]
    simp only [show (3 : Nat) + (payload.length + 2) = payload.length + 5 by omega]
    rw [lw_feed_list_cons, e5, lw_feed_list_nil]
    simp only [Prod.mk.injEq]
    refine ⟨trivial, ?_⟩
    rw [show 5 + payload.length = 3 + (payload.length + 2) by omega, List.replicate_add,
      List.replicate_add]
    simp
    rw [List.replicate_add]
    simp
  rw [hmain]
  have hfintake : ((lw_write_bytes (((dta.set 0 170).set 1 fLo).set 2 fHi) 3
      (cidb :: (payload ++ [cLo]))).set (payload.length + 5) cHi).take (payload.length + 6) =
      170 :: fLo :: fHi :: cidb :: (payload ++ [cLo, cHi]) := by
    rw [take_succ_getD _ (payload.length + 5) (by rw [List.length_set, hd4len]; omega),
      getD_set_self _ _ _ (by rw [hd4len]; omega),
      take_set_of_le _ _ _ _ (le_refl (payload.length + 5)), htake4]
    simp
  refine ⟨rfl, rfl, rfl, hfintake, ?_⟩
  rw [List.length_set, hd4len]

/-- Recovering the payload from a buffer whose front holds a complete
stored packet. -/
theorem parse_payload_of_take (fd : List Nat) (a b c d : Nat) (payload : List Nat) (e f : Nat)
    (htake : fd.take (payload.length + 6) = a :: b :: c :: d :: (payload ++ [e, f])) :
    lw_parse_packet_data fd payload.length 0 = payload := by
  have h0 := List.drop_take (payload.length + 6) 4 fd
  rw [htake, show payload.length + 6 - 4 = payload.length + 2 by omega] at h0
  simp only [List.drop_succ_cons, List.drop_zero] at h0
  rw [lw_parse_packet_data, show (4 : Nat) + 0 = 4 from rfl,
    show payload.length = min payload.length (payload.length + 2) from
      (min_eq_left (by omega)).symm,
    ← List.take_take, ← h0]
  exact take_append_length payload [e, f]

/-- Feeding the bytes built by `lw_create_packet` to a decoder in the
start state: all-but-last report `LW_RESULT_AGAIN`, the last byte
reports `LW_RESULT_SUCCESS`, the command id is recorded, and the
payload is recovered by `lw_parse_packet_data`. -/
theorem lw_feed_created_packet (r : lw_response) (cid w : Nat) (payload : List Nat)
    (hstate : r.parse_state = .LW_PARSESTATE_START)
    (hdlen : r.data.length = LW_PACKET_RECV_SIZE)
    (hcid : cid < 256) (hpay : ∀ b ∈ payload, b < 256)
    (hlen : payload.length ≤ 58) :
    (lw_feed_list r (lw_create_packet cid w payload)).2 =
        List.replicate (5 + payload.length) .LW_RESULT_AGAIN ++ [.LW_RESULT_SUCCESS] ∧
    (lw_feed_list r (lw_create_packet cid w payload)).1.parse_state = .LW_PARSESTATE_DONE ∧
    (lw_feed_list r (lw_create_packet cid w payload)).1.command_id = cid ∧
    lw_parse_packet_data (lw_feed_list r (lw_create_packet cid w payload)).1.data
        payload.length 0 = payload ∧
    (lw_feed_list r (lw_create_packet cid w payload)).1.data.length = 64 := by
  have hfl : (((1 + payload.length) <<< 6) ||| (w &&& 1)) % 65536 =
      64 * (1 + payload.length) + w % 2 := flags_eq _ w (by omega)
  have hfl_lt : (((1 + payload.length) <<< 6) ||| (w &&& 1)) % 65536 < 65536 := by omega
  have hpk : lw_create_packet cid w payload =
      170 :: (((((1 + payload.length) <<< 6) ||| (w &&& 1)) % 65536) % 256) ::
        ((((((1 + payload.length) <<< 6) ||| (w &&& 1)) % 65536) >>> 8) % 256) :: cid ::
        (payload ++
          [lw_create_crc (170 :: (((((1 + payload.length) <<< 6) ||| (w &&& 1)) % 65536) % 256) ::
              ((((((1 + payload.length) <<< 6) ||| (w &&& 1)) % 65536) >>> 8) % 256) :: cid ::
              payload) % 256,
            (lw_create_crc (170 :: (((((1 + payload.length) <<< 6) ||| (w &&& 1)) % 65536) % 256) ::
              ((((((1 + payload.length) <<< 6) ||| (w &&& 1)) % 65536) >>> 8) % 256) :: cid ::
              payload) >>> 8) % 256]) := by
    simp [lw_create_packet, LW_PACKET_START_BYTE]
  have hbytes : ∀ b ∈ (170 : Nat) :: (((((1 + payload.length) <<< 6) ||| (w &&& 1)) % 65536) % 256) ::
      ((((((1 + payload.length) <<< 6) ||| (w &&& 1)) % 65536) >>> 8) % 256) :: cid :: payload,
      b < 256 := by
    intro b hb
    simp only [List.mem_cons] at hb
    rcases hb with rfl | rfl | rfl | rfl | hb
    · norm_num
    · exact Nat.mod_lt _ (by norm_num)
    · exact Nat.mod_lt _ (by norm_num)
    · exact hcid
    · exact hpay b hb
  have hpsize : ((((((1 + payload.length) <<< 6) ||| (w &&& 1)) % 65536) % 256) |||
      (((((((1 + payload.length) <<< 6) ||| (w &&& 1)) % 65536) >>> 8) % 256) <<< 8)) >>> 6 =
      1 + payload.length := by
    rw [lor_bytes_reconstruct _ hfl_lt, Nat.shiftRight_eq_div_pow, hfl,
      show (2 : Nat) ^ 6 = 64 from by norm_num]
    omega
  have hcrc : (lw_create_crc ((170 : Nat) :: (((((1 + payload.length) <<< 6) ||| (w &&& 1)) % 65536) % 256) ::
        ((((((1 + payload.length) <<< 6) ||| (w &&& 1)) % 65536) >>> 8) % 256) :: cid :: payload) % 256) |||
      ((lw_create_crc ((170 : Nat) :: (((((1 + payload.length) <<< 6) ||| (w &&& 1)) % 65536) % 256) ::
        ((((((1 + payload.length) <<< 6) ||| (w &&& 1)) % 65536) >>> 8) % 256) :: cid :: payload) >>> 8) % 256) <<< 8 =
      lw_create_crc ((170 : Nat) :: (((((1 + payload.length) <<< 6) ||| (w &&& 1)) % 65536) % 256) ::
        ((((((1 + payload.length) <<< 6) ||| (w &&& 1)) % 65536) >>> 8) % 256) :: cid :: payload) :=
    lor_bytes_reconstruct _ (lw_create_crc_lt _ hbytes)
  have hw := lw_feed_wire_packet
    (((((1 + payload.length) <<< 6) ||| (w &&& 1)) % 65536) % 256)
    ((((((1 + payload.length) <<< 6) ||| (w &&& 1)) % 65536) >>> 8) % 256)
    cid _ _ payload r hstate (by rw [hdlen]; rfl) hlen hpsize hcrc
  rw [hpk]
  obtain ⟨hres, hdone, hcmd, htake, hdl64⟩ := hw
  exact ⟨hres, hdone, hcmd, parse_payload_of_take _ _ _ _ _ payload _ _ htake, hdl64⟩

-- ----------------------------------------------------------------------------
-- Claim C3: the round-trip law.
-- ----------------------------------------------------------------------------

/-- Claim C3: for every command id, write flag, and payload whose
length fits the receive capacity (payload length + 1 at most
`LW_PACKET_RECV_SIZE - 5`), feeding the bytes produced by
`lw_create_packet` one at a time to a freshly initialized response
returns `LW_RESULT_AGAIN` on every byte except the last, returns
`LW_RESULT_SUCCESS` exactly once on the final byte, and afterwards the
response's `command_id` equals the input command id and the payload
recovered via `lw_parse_packet_data` equals the input payload. -/
theorem lw_create_packet_feed_round_trip (cid w : Nat) (payload : List Nat)
    (hcid : cid < 256) (hw : w < 256) (hpay : ∀ b ∈ payload, b < 256)
    (hlen : payload.length + 1 ≤ LW_PACKET_RECV_SIZE - 5) :
    (lw_feed_list initial_response (lw_create_packet cid w payload)).2 =
        List.replicate (5 + payload.length) .LW_RESULT_AGAIN ++ [.LW_RESULT_SUCCESS] ∧
    (lw_feed_list initial_response (lw_create_packet cid w payload)).1.command_id = cid ∧
    lw_parse_packet_data
        (lw_feed_list initial_response (lw_create_packet cid w payload)).1.data
        payload.length 0 = payload := by
  have hlen58 : payload.length ≤ 58 := by
    simp only [LW_PACKET_RECV_SIZE] at hlen
    omega
  have h := lw_feed_created_packet initial_response cid w payload rfl (by rfl)
    hcid hpay hlen58
  exact ⟨h.1, h.2.2.1, h.2.2.2.1⟩

/-- Witness for claim C3 at command id 5, write flag 0, payload `[7]`. -/
theorem lw_create_packet_feed_round_trip_witness :
    ((5 : Nat) < 256 ∧ (0 : Nat) < 256 ∧ (∀ b ∈ [(7 : Nat)], b < 256) ∧
      [(7 : Nat)].length + 1 ≤ LW_PACKET_RECV_SIZE - 5) ∧
    ((lw_feed_list initial_response (lw_create_packet 5 0 [7])).2 =
        List.replicate (5 + [(7 : Nat)].length) .LW_RESULT_AGAIN ++ [.LW_RESULT_SUCCESS] ∧
    (lw_feed_list initial_response (lw_create_packet 5 0 [7])).1.command_id = 5 ∧
    lw_parse_packet_data
        (lw_feed_list initial_response (lw_create_packet 5 0 [7])).1.data
        [(7 : Nat)].length 0 = [7]) :=
  ⟨⟨by norm_num, by norm_num, by decide, by decide⟩,
    lw_create_packet_feed_round_trip 5 0 [7] (by norm_num) (by norm_num)
      (by decide) (by decide)⟩

-- ----------------------------------------------------------------------------
-- Claim C5: the decoder never signals an error.
-- ----------------------------------------------------------------------------

/-- Claim C5: `lw_feed_response` returns only `LW_RESULT_SUCCESS` or
`LW_RESULT_AGAIN` for every accumulator state (in particular for every
state reachable from `lw_init_response`; the `DONE` switch arm that
returns `LW_RESULT_ERROR` is unreachable because a `DONE` accumulator
is re-initialized first), and a structurally complete packet whose two
trailing checksum bytes do not match reverts the state to start and
yields `LW_RESULT_AGAIN`. -/
theorem lw_feed_response_never_errors (r : lw_response) (b : Nat) :
    ((lw_feed_response r b).2 = .LW_RESULT_SUCCESS ∨
      (lw_feed_response r b).2 = .LW_RESULT_AGAIN) ∧
    (r.parse_state = .LW_PARSESTATE_PAYLOAD →
      r.data_size + 1 = r.payload_size + 5 →
      ((r.data.set r.data_size b).getD (r.data_size + 1 - 2) 0) |||
          (((r.data.set r.data_size b).getD (r.data_size + 1 - 1) 0) <<< 8) ≠
        lw_create_crc ((r.data.set r.data_size b).take (r.data_size + 1 - 2)) →
      (lw_feed_response r b).2 = .LW_RESULT_AGAIN ∧
      (lw_feed_response r b).1.parse_state = .LW_PARSESTATE_START) := by
  obtain ⟨dta, dsz, psz, pst, cid⟩ := r
  constructor
  · cases pst <;>
      · simp only [lw_feed_response, lw_init_response, reduceCtorEq, reduceIte]
        repeat' split
        all_goals simp
  · intro hstate hcomplete hmis
    have hp : pst = .LW_PARSESTATE_PAYLOAD := hstate
    subst hp
    have hc : dsz + 1 = psz + 5 := hcomplete
    simp only [lw_feed_response, reduceCtorEq, reduceIte]
    rw [if_pos hc, if_neg hmis]
    exact ⟨rfl, rfl⟩

/-- Witness for claim C5: the five bytes `[0xAA,0x40,0x00,0x05,0x00]`
put a fresh decoder in the payload state one byte short of completion;
feeding `0x00` (the correct checksum is `0xCFD5`) yields
`LW_RESULT_AGAIN` and a start-state accumulator. -/
theorem lw_feed_response_never_errors_witness :
    ((lw_feed_list initial_response [170, 64, 0, 5, 0]).1.parse_state =
        .LW_PARSESTATE_PAYLOAD ∧
      (lw_feed_list initial_response [170, 64, 0, 5, 0]).1.data_size + 1 =
        (lw_feed_list initial_response [170, 64, 0, 5, 0]).1.payload_size + 5) ∧
    ((lw_feed_response (lw_feed_list initial_response [170, 64, 0, 5, 0]).1 0).2 =
        .LW_RESULT_AGAIN ∧
      (lw_feed_response (lw_feed_list initial_response [170, 64, 0, 5, 0]).1 0).1.parse_state =
        .LW_PARSESTATE_START) :=
  ⟨⟨by decide, by decide⟩,
    (lw_feed_response_never_errors (lw_feed_list initial_response [170, 64, 0, 5, 0]).1 0).2
      (by decide) (by decide) (by decide)⟩

-- ----------------------------------------------------------------------------
-- Claim C10: the buffer-bounds invariant.
-- ----------------------------------------------------------------------------

/-- The decoder invariant: the buffer keeps its fixed capacity, and in
the payload state the accumulated count stays strictly below the
completion threshold `payload_size + 5`, which itself fits the
capacity. -/
def lw_response_inv (r : lw_response) : Prop :=
  r.data.length = LW_PACKET_RECV_SIZE ∧
  (r.parse_state = .LW_PARSESTATE_PAYLOAD →
    1 ≤ r.payload_size ∧ r.payload_size + 5 ≤ LW_PACKET_RECV_SIZE ∧
    3 ≤ r.data_size ∧ r.data_size < r.payload_size + 5)

/-- The invariant holds for a fresh response. -/
theorem lw_response_inv_initial : lw_response_inv initial_response := by
  constructor
  · simp [initial_response, lw_init_response]
  · intro h
    simp [initial_response, lw_init_response] at h

/-- One decoder step preserves the invariant. -/
theorem lw_response_inv_step (r : lw_response) (b : Nat) (h : lw_response_inv r) :
    lw_response_inv (lw_feed_response r b).1 := by
  obtain ⟨dta, dsz, psz, pst, cid⟩ := r
  obtain ⟨hlen, hpay⟩ := h
  have hlen' : dta.length = LW_PACKET_RECV_SIZE := hlen
  cases pst with
  | LW_PARSESTATE_START =>
      by_cases hb : b = LW_PACKET_START_BYTE <;>
        simp [lw_feed_response, lw_response_inv, hb, List.length_set, hlen']
  | LW_PARSESTATE_FLAGS1 =>
      simp [lw_feed_response, lw_response_inv, List.length_set, hlen']
  | LW_PARSESTATE_FLAGS2 =>
      simp only [lw_feed_response, reduceCtorEq, reduceIte]
      split
      · simp_all [lw_response_inv, List.length_set]
      · rename_i hrange
        push_neg at hrange
        simp_all [lw_response_inv, List.length_set]
        omega
  | LW_PARSESTATE_PAYLOAD =>
      have hpay' := hpay rfl
      simp only at hpay'
      simp only [lw_feed_response, reduceCtorEq, reduceIte]
      split
      · split
        · simp_all [lw_response_inv, List.length_set]
        · simp_all [lw_response_inv, List.length_set]
      · rename_i hne
        simp_all [lw_response_inv, List.length_set]
        omega
  | LW_PARSESTATE_DONE =>
      by_cases hb : b = LW_PACKET_START_BYTE <;>
        simp [lw_feed_response, lw_init_response, lw_response_inv, List.length_set, hlen', hb]

/-- The invariant holds along any fed byte sequence. -/
theorem lw_response_inv_feed_list (bytes : List Nat) :
    ∀ r, lw_response_inv r → lw_response_inv (lw_feed_list r bytes).1 := by
  induction bytes with
  | nil => intro r h; exact h
  | cons b rest ih =>
      intro r h
      rw [lw_feed_list_cons]
      exact ih _ (lw_response_inv_step r b h)

/-- Claim C10: starting from a fresh response, after any byte sequence
the buffer still has length `LW_PACKET_RECV_SIZE`, and in the payload
state (where the next byte is written at index `data_size`)
`data_size < payload_size + 5` and `payload_size + 5 ≤
LW_PACKET_RECV_SIZE`, so every write lands strictly inside the
fixed-capacity buffer. -/
theorem lw_feed_list_buffer_bounds (bytes : List Nat) :
    (lw_feed_list initial_response bytes).1.data.length = LW_PACKET_RECV_SIZE ∧
    ((lw_feed_list initial_response bytes).1.parse_state = .LW_PARSESTATE_PAYLOAD →
      (lw_feed_list initial_response bytes).1.data_size <
          (lw_feed_list initial_response bytes).1.payload_size + 5 ∧
      (lw_feed_list initial_response bytes).1.payload_size + 5 ≤ LW_PACKET_RECV_SIZE ∧
      (lw_feed_list initial_response bytes).1.data_size < LW_PACKET_RECV_SIZE) := by
  have h := lw_response_inv_feed_list bytes initial_response lw_response_inv_initial
  obtain ⟨h1, h2⟩ := h
  refine ⟨h1, fun hp => ?_⟩
  have h3 := h2 hp
  exact ⟨h3.2.2.2, h3.2.1, by omega⟩

/-- Witness for claim C10 after the three bytes `[0xAA, 0x40, 0x00]`,
which leave the decoder in the payload state. -/
theorem lw_feed_list_buffer_bounds_witness :
    ((lw_feed_list initial_response [170, 64, 0]).1.parse_state =
        .LW_PARSESTATE_PAYLOAD) ∧
    ((lw_feed_list initial_response [170, 64, 0]).1.data.length = LW_PACKET_RECV_SIZE) ∧
    ((lw_feed_list initial_response [170, 64, 0]).1.data_size <
        (lw_feed_list initial_response [170, 64, 0]).1.payload_size + 5 ∧
      (lw_feed_list initial_response [170, 64, 0]).1.payload_size + 5 ≤ LW_PACKET_RECV_SIZE ∧
      (lw_feed_list initial_response [170, 64, 0]).1.data_size < LW_PACKET_RECV_SIZE) :=
  ⟨by decide, (lw_feed_list_buffer_bounds [170, 64, 0]).1,
    (lw_feed_list_buffer_bounds [170, 64, 0]).2 (by decide)⟩

-- ----------------------------------------------------------------------------
-- Claim C7: the flags bounds check and resynchronization.
-- ----------------------------------------------------------------------------

/-- Two accumulators that agree on the buffer and the decoder state
(and, when in the payload state, also on the progress counters)
produce the same result codes for any fed bytes: the stale
`data_size`/`payload_size`/`command_id` left behind by a
resynchronization are not observable. -/
def lw_feed_equiv (r1 r2 : lw_response) : Prop :=
  r1.data = r2.data ∧ r1.parse_state = r2.parse_state ∧
  (r1.parse_state = .LW_PARSESTATE_PAYLOAD →
    r1.data_size = r2.data_size ∧ r1.payload_size = r2.payload_size)

/-- One decoder step preserves `lw_feed_equiv` and produces equal
result codes. -/
theorem lw_feed_equiv_step (r1 r2 : lw_response) (b : Nat) (h : lw_feed_equiv r1 r2) :
    (lw_feed_response r1 b).2 = (lw_feed_response r2 b).2 ∧
    lw_feed_equiv (lw_feed_response r1 b).1 (lw_feed_response r2 b).1 := by
  obtain ⟨d1, ds1, ps1, pst1, c1⟩ := r1
  obtain ⟨d2, ds2, ps2, pst2, c2⟩ := r2
  obtain ⟨hd, hp, hsz⟩ := h
  have hd' : d1 = d2 := hd
  have hp' : pst1 = pst2 := hp
  subst hd'
  subst hp'
  cases pst1 with
  | LW_PARSESTATE_START =>
      by_cases hb : b = LW_PACKET_START_BYTE <;>
        simp [lw_feed_response, lw_feed_equiv, hb]
  | LW_PARSESTATE_FLAGS1 =>
      simp [lw_feed_response, lw_feed_equiv]
  | LW_PARSESTATE_FLAGS2 =>
      simp only [lw_feed_response, reduceCtorEq, reduceIte]
      split <;> simp [lw_feed_equiv]
  | LW_PARSESTATE_PAYLOAD =>
      obtain ⟨hds, hps⟩ := hsz rfl
      have hds' : ds1 = ds2 := hds
      have hps' : ps1 = ps2 := hps
      subst hds'
      subst hps'
      simp only [lw_feed_response, reduceCtorEq, reduceIte]
      split
      · split <;> simp [lw_feed_equiv]
      · simp [lw_feed_equiv]
  | LW_PARSESTATE_DONE =>
      by_cases hb : b = LW_PACKET_START_BYTE <;>
        simp [lw_feed_response, lw_init_response, lw_feed_equiv, hb]

/-- Equivalent accumulators produce identical result traces. -/
theorem lw_feed_equiv_list (bs : List Nat) :
    ∀ r1 r2, lw_feed_equiv r1 r2 →
      (lw_feed_list r1 bs).2 = (lw_feed_list r2 bs).2 := by
  induction bs with
  | nil => intro r1 r2 _; rfl
  | cons b rest ih =>
      intro r1 r2 h
      have hstep := lw_feed_equiv_step r1 r2 b h
      rw [lw_feed_list_cons, lw_feed_list_cons, hstep.1, ih _ _ hstep.2]

/-- The declared payload length the decoder computes from the two
stored flags bytes (source line
`(uint32_t)(response->data[1] | (response->data[2] << 8)) >> 6`). -/
def lw_declared_payload_size (d : List Nat) : Nat :=
  ((d.getD 1 0) ||| ((d.getD 2 0) <<< 8)) >>> 6

/-- Claim C7: on the high flags byte the decoder computes the declared
payload length as `(low ||| (high <<< 8)) >>> 6`; outside
`[1, LW_PACKET_RECV_SIZE - 5]` it reverts to the start state for the
next byte with `LW_RESULT_AGAIN`, retaining no packet progress
observable in any later result (the reverted accumulator is
trace-equivalent to a re-initialized one); inside the interval it
advances to the payload state with 3 bytes accumulated and the
declared length recorded. -/
theorem lw_feed_response_flags2 (r : lw_response) (b : Nat)
    (hstate : r.parse_state = .LW_PARSESTATE_FLAGS2) :
    (lw_declared_payload_size (r.data.set 2 b) > LW_PACKET_RECV_SIZE - 5 ∨
        lw_declared_payload_size (r.data.set 2 b) < 1 →
      (lw_feed_response r b).1.parse_state = .LW_PARSESTATE_START ∧
      (lw_feed_response r b).2 = .LW_RESULT_AGAIN ∧
      ∀ bs, (lw_feed_list (lw_feed_response r b).1 bs).2 =
        (lw_feed_list (lw_init_response (lw_feed_response r b).1) bs).2) ∧
    (1 ≤ lw_declared_payload_size (r.data.set 2 b) →
      lw_declared_payload_size (r.data.set 2 b) ≤ LW_PACKET_RECV_SIZE - 5 →
      (lw_feed_response r b).1.parse_state = .LW_PARSESTATE_PAYLOAD ∧
      (lw_feed_response r b).1.data_size = 3 ∧
      (lw_feed_response r b).1.payload_size = lw_declared_payload_size (r.data.set 2 b)) := by
  obtain ⟨dta, dsz, psz, pst, cid⟩ := r
  have hp : pst = .LW_PARSESTATE_FLAGS2 := hstate
  subst hp
  constructor
  · intro hrange
    simp only [lw_declared_payload_size] at hrange
    have hrange' : ((dta.set 2 b).getD 1 0 ||| ((dta.set 2 b).getD 2 0) <<< 8) >>> 6 >
        LW_PACKET_RECV_SIZE - 5 ∨
        ((dta.set 2 b).getD 1 0 ||| ((dta.set 2 b).getD 2 0) <<< 8) >>> 6 < 1 := hrange
    simp only [lw_feed_response, reduceCtorEq, reduceIte]
    rw [if_pos hrange']
    refine ⟨rfl, rfl, fun bs => lw_feed_equiv_list bs _ _ ?_⟩
    exact ⟨rfl, rfl, fun hcontra => nomatch hcontra⟩
  · intro h1 h2
    simp only [lw_declared_payload_size] at h1 h2
    have hrange' : ¬(((dta.set 2 b).getD 1 0 ||| ((dta.set 2 b).getD 2 0) <<< 8) >>> 6 >
        LW_PACKET_RECV_SIZE - 5 ∨
        ((dta.set 2 b).getD 1 0 ||| ((dta.set 2 b).getD 2 0) <<< 8) >>> 6 < 1) := by
      have h1' : 1 ≤ ((dta.set 2 b).getD 1 0 ||| ((dta.set 2 b).getD 2 0) <<< 8) >>> 6 := h1
      have h2' : ((dta.set 2 b).getD 1 0 ||| ((dta.set 2 b).getD 2 0) <<< 8) >>> 6 ≤
          LW_PACKET_RECV_SIZE - 5 := h2
      omega
    simp only [lw_feed_response, reduceCtorEq, reduceIte]
    rw [if_neg hrange']
    refine ⟨rfl, rfl, ?_⟩
    simp [lw_declared_payload_size]

/-- Witness for claim C7: after `[0xAA, 0x40]` the decoder is in the
flags-2 state; the high byte `0x00` declares length 1 (in range,
advance with 3 bytes accumulated), the high byte `0xFF` declares
length 1021 (out of range, revert to start, trace-equivalent to a
re-initialized accumulator). -/
theorem lw_feed_response_flags2_witness :
    ((lw_feed_list initial_response [170, 64]).1.parse_state = .LW_PARSESTATE_FLAGS2) ∧
    ((lw_feed_response (lw_feed_list initial_response [170, 64]).1 0).1.parse_state =
        .LW_PARSESTATE_PAYLOAD ∧
      (lw_feed_response (lw_feed_list initial_response [170, 64]).1 0).1.data_size = 3 ∧
      (lw_feed_response (lw_feed_list initial_response [170, 64]).1 0).1.payload_size =
        lw_declared_payload_size ((lw_feed_list initial_response [170, 64]).1.data.set 2 0)) ∧
    ((lw_feed_response (lw_feed_list initial_response [170, 64]).1 255).1.parse_state =
        .LW_PARSESTATE_START) ∧
    ((lw_feed_list (lw_feed_response (lw_feed_list initial_response [170, 64]).1 255).1
        [170]).2 =
      (lw_feed_list
        (lw_init_response (lw_feed_response (lw_feed_list initial_response [170, 64]).1 255).1)
        [170]).2) :=
  ⟨by decide,
    (lw_feed_response_flags2 (lw_feed_list initial_response [170, 64]).1 0
      (by decide)).2 (by decide) (by decide),
    ((lw_feed_response_flags2 (lw_feed_list initial_response [170, 64]).1 255
      (by decide)).1 (by decide)).1,
    ((lw_feed_response_flags2 (lw_feed_list initial_response [170, 64]).1 255
      (by decide)).1 (by decide)).2.2 [170]⟩

-- ----------------------------------------------------------------------------
-- Claim C6: implicit re-initialization after a completed packet.
-- ----------------------------------------------------------------------------

/-- From a completed accumulator, feeding a non-empty byte list is the
same as feeding it to the re-initialized accumulator. -/
theorem lw_feed_list_done_eq_init (r : lw_response)
    (hstate : r.parse_state = .LW_PARSESTATE_DONE) (bs : List Nat) (hbs : bs ≠ []) :
    lw_feed_list r bs = lw_feed_list (lw_init_response r) bs := by
  obtain ⟨dta, dsz, psz, pst, c⟩ := r
  have hp : pst = .LW_PARSESTATE_DONE := hstate
  subst hp
  cases bs with
  | nil => exact absurd rfl hbs
  | cons b rest => rfl

/-- Claim C6: after a completed packet (state `DONE`), the next fed
byte first re-initializes the accumulator and is then processed under
the start rules in the same call; consequently a second valid packet
fed immediately afterwards (no explicit reset) decodes correctly, with
exactly one `LW_RESULT_SUCCESS`, on its final byte. -/
theorem lw_feed_after_complete (r : lw_response) (cid w : Nat) (payload : List Nat)
    (hstate : r.parse_state = .LW_PARSESTATE_DONE)
    (hdlen : r.data.length = LW_PACKET_RECV_SIZE)
    (hcid : cid < 256) (hpay : ∀ b ∈ payload, b < 256) (hlen : payload.length ≤ 58) :
    (∀ b, lw_feed_response r b = lw_feed_response (lw_init_response r) b) ∧
    (lw_feed_list r (lw_create_packet cid w payload)).2 =
        List.replicate (5 + payload.length) .LW_RESULT_AGAIN ++ [.LW_RESULT_SUCCESS] ∧
    (lw_feed_list r (lw_create_packet cid w payload)).1.command_id = cid := by
  have hfeed : ∀ b, lw_feed_response r b = lw_feed_response (lw_init_response r) b := by
    intro b
    obtain ⟨dta, dsz, psz, pst, c⟩ := r
    have hp : pst = .LW_PARSESTATE_DONE := hstate
    subst hp
    rfl
  have hlst := lw_feed_list_done_eq_init r hstate (lw_create_packet cid w payload)
    (by simp [lw_create_packet])
  have hmain := lw_feed_created_packet (lw_init_response r) cid w payload
    (by simp [lw_init_response]) (by simp [lw_init_response]; exact hdlen) hcid hpay hlen
  rw [hlst]
  exact ⟨hfeed, hmain.1, hmain.2.2.1⟩

/-- Witness for claim C6: complete the command-5 read packet, then
feed the command-9 write packet with payload `[3]` with no reset. -/
theorem lw_feed_after_complete_witness :
    ((lw_feed_list initial_response (lw_create_packet 5 0 [])).1.parse_state =
        .LW_PARSESTATE_DONE ∧
      (lw_feed_list initial_response (lw_create_packet 5 0 [])).1.data.length =
        LW_PACKET_RECV_SIZE) ∧
    (lw_feed_response (lw_feed_list initial_response (lw_create_packet 5 0 [])).1 170 =
      lw_feed_response
        (lw_init_response (lw_feed_list initial_response (lw_create_packet 5 0 [])).1) 170) ∧
    ((lw_feed_list (lw_feed_list initial_response (lw_create_packet 5 0 [])).1
        (lw_create_packet 9 1 [3])).2 =
        List.replicate (5 + [(3 : Nat)].length) .LW_RESULT_AGAIN ++ [.LW_RESULT_SUCCESS] ∧
      (lw_feed_list (lw_feed_list initial_response (lw_create_packet 5 0 [])).1
        (lw_create_packet 9 1 [3])).1.command_id = 9) :=
  ⟨⟨by decide, by decide⟩,
    (lw_feed_after_complete (lw_feed_list initial_response (lw_create_packet 5 0 [])).1
      9 1 [3] (by decide) (by decide) (by decide) (by decide) (by decide)).1 170,
    ⟨(lw_feed_after_complete (lw_feed_list initial_response (lw_create_packet 5 0 [])).1
        9 1 [3] (by decide) (by decide) (by decide) (by decide) (by decide)).2.1,
      (lw_feed_after_complete (lw_feed_list initial_response (lw_create_packet 5 0 [])).1
        9 1 [3] (by decide) (by decide) (by decide) (by decide) (by decide)).2.2⟩⟩

-- ----------------------------------------------------------------------------
-- Orchestrator (`lw_wait_for_next_response`, `lw_send_request_get_response`).
--
-- The platform callbacks are oracles indexed by call number: `clock`
-- models `get_time_ms` (a uint32, taken `% 2^32` at each use), `recv`
-- models `serial_receive` asked for one byte (returning the signed
-- byte count and the byte), `send` models `serial_send` (returning
-- the reported byte count).  The loops take fuel and return `none`
-- when the C loop would still be running.
-- ----------------------------------------------------------------------------

/-- The observable state threaded through the orchestrator: the
response accumulator plus how many times each callback has run. -/
structure device_state where
  response : lw_response
  clock_calls : Nat
  recv_calls : Nat
  send_calls : Nat
deriving DecidableEq, Repr

/-- The `while (1)` loop of C `lw_wait_for_next_response`: compute the
remaining time (only when a timeout is set), receive one byte, and
dispatch on the signed byte count exactly as the source does. -/
def lw_wait_loop (clock : Nat → Nat) (recv : Nat → Int × Nat)
    (command_id timeout_ms timeout_time : Nat) :
    device_state → Nat → Option (lw_result × device_state)
  | _, 0 => none
  | st, fuel + 1 =>
      let pair :=
        if timeout_ms ≠ 0 then
          (if clock st.clock_calls % 4294967296 < timeout_time then
              timeout_time - clock st.clock_calls % 4294967296
            else 0,
            { st with clock_calls := st.clock_calls + 1 })
        else (0, st)
      let time_left_ms := pair.1
      let st1 := pair.2
      let rcv := recv st1.recv_calls
      let bytes_read := rcv.1
      let byte := rcv.2
      let st2 := { st1 with recv_calls := st1.recv_calls + 1 }
      if bytes_read = -1 then some (.LW_RESULT_ERROR, st2)
      else if 0 < bytes_read then
        let fed := lw_feed_response st2.response byte
        let st3 := { st2 with response := fed.1 }
        if fed.2 = .LW_RESULT_SUCCESS ∧
            (command_id = LW_ANY_COMMAND ∨ fed.1.command_id = command_id) then
          some (.LW_RESULT_SUCCESS, st3)
        else lw_wait_loop clock recv command_id timeout_ms timeout_time st3 fuel
      else if timeout_ms = 0 then some (.LW_RESULT_AGAIN, st2)
      else if time_left_ms = 0 then some (.LW_RESULT_TIMEOUT, st2)
      else lw_wait_loop clock recv command_id timeout_ms timeout_time st2 fuel

/-- C `lw_wait_for_next_response`: compute the absolute deadline at
entry (uint32 wrap-around addition; only when a timeout is set), then
run the loop. -/
def lw_wait_for_next_response (clock : Nat → Nat) (recv : Nat → Int × Nat)
    (command_id timeout_ms : Nat) (st : device_state) (fuel : Nat) :
    Option (lw_result × device_state) :=
  let pair :=
    if timeout_ms ≠ 0 then
      (((clock st.clock_calls % 4294967296) + timeout_ms) % 4294967296,
        { st with clock_calls := st.clock_calls + 1 })
    else (0, st)
  lw_wait_loop clock recv command_id timeout_ms pair.1 pair.2 fuel

/-- The `while (attempts--)` loop of C `lw_send_request_get_response`:
the body runs once per remaining attempt. -/
def lw_send_request_attempts (clock : Nat → Nat) (recv : Nat → Int × Nat)
    (send : Nat → Nat) (request_command_id : Nat) (wait_fuel : Nat) :
    device_state → Nat → Option (lw_result × device_state)
  | st, 0 => some (.LW_RESULT_EXCEEDED_RETRIES, st)
  | st, attempts + 1 =>
      let sent := send st.send_calls
      let st1 := { st with send_calls := st.send_calls + 1 }
      if sent = 0 then some (.LW_RESULT_ERROR, st1)
      else
        match lw_wait_for_next_response clock recv request_command_id
            LW_RESPONSE_TIMEOUT_MS st1 wait_fuel with
        | none => none
        | some (result, st2) =>
            if result = .LW_RESULT_SUCCESS then some (.LW_RESULT_SUCCESS, st2)
            else if result = .LW_RESULT_ERROR then some (.LW_RESULT_ERROR, st2)
            else lw_send_request_attempts clock recv send request_command_id wait_fuel
              st2 attempts

/-- C `lw_send_request_get_response`: up to `LW_REQUEST_RETRIES` send
attempts, each followed by one await with the fixed response
timeout. -/
def lw_send_request_get_response (clock : Nat → Nat) (recv : Nat → Int × Nat)
    (send : Nat → Nat) (request_command_id : Nat) (st : device_state)
    (wait_fuel : Nat) : Option (lw_result × device_state) :=
  lw_send_request_attempts clock recv send request_command_id wait_fuel st
    LW_REQUEST_RETRIES

-- ----------------------------------------------------------------------------
-- Claim C4: blocking mode.
-- ----------------------------------------------------------------------------

/-- With a nonzero timeout the wait loop never produces
`LW_RESULT_AGAIN`. -/
theorem lw_wait_loop_never_again (clock : Nat → Nat) (recv : Nat → Int × Nat)
    (cid tm tt : Nat) (htm : tm ≠ 0) :
    ∀ fuel st st', lw_wait_loop clock recv cid tm tt st fuel ≠
      some (.LW_RESULT_AGAIN, st') := by
  intro fuel
  induction fuel with
  | zero => intro st st' h; simp [lw_wait_loop] at h
  | succ n ih =>
      intro st st' h
      simp only [lw_wait_loop] at h
      rw [if_pos htm] at h
      repeat' split at h
      all_goals first
        | exact ih _ _ h
        | simp_all

/-- Claim C4, amended: in blocking mode (`timeout_ms ≠ 0`)
`lw_wait_for_next_response` computes an absolute deadline at entry and
never returns `LW_RESULT_AGAIN`; on any loop iteration where the
remaining time to the deadline is zero and the transport receive
yields no byte, it returns `LW_RESULT_TIMEOUT` at that iteration. -/
theorem lw_wait_blocking_timeout (clock : Nat → Nat) (recv : Nat → Int × Nat)
    (cid tm : Nat) (htm : tm ≠ 0) :
    (∀ fuel st st', lw_wait_for_next_response clock recv cid tm st fuel ≠
        some (.LW_RESULT_AGAIN, st')) ∧
    (∀ tt st fuel, (recv st.recv_calls).1 = 0 →
        tt ≤ clock st.clock_calls % 4294967296 →
        lw_wait_loop clock recv cid tm tt st (fuel + 1) =
          some (.LW_RESULT_TIMEOUT,
            { st with clock_calls := st.clock_calls + 1,
                      recv_calls := st.recv_calls + 1 })) := by
  constructor
  · intro fuel st st'
    simp only [lw_wait_for_next_response]
    rw [if_pos htm]
    exact lw_wait_loop_never_again clock recv cid tm _ htm fuel _ st'
  · intro tt st fuel hrecv hdeadline
    have hlt : ¬(clock st.clock_calls % 4294967296 < tt) := by omega
    simp only [lw_wait_loop]
    rw [if_pos htm, if_neg hlt]
    simp [hrecv, htm]

/-- Claim C4, counterexample: with the constant (hence monotonically
non-decreasing) clock 4294967295 and a receive that still hands over
the six bytes of the command-5 packet, the deadline computed at entry
is 999, so the remaining time is zero on every iteration, yet
`lw_wait_for_next_response` returns `LW_RESULT_SUCCESS`, not
`LW_RESULT_TIMEOUT`. -/
theorem lw_wait_success_past_deadline :
    ((4294967295 % 4294967296 + 1000) % 4294967296 ≤ 4294967295 % 4294967296) ∧
    ((lw_wait_for_next_response (fun _ => 4294967295)
        (fun i => if i < 6 then ((1 : Int), [170, 64, 0, 5, 213, 207].getD i 0)
          else ((0 : Int), 0))
        5 1000 ⟨initial_response, 0, 0, 0⟩ 7).map Prod.fst =
      some .LW_RESULT_SUCCESS) := by
  constructor
  · decide
  · decide

/-- Witness for claim C4 with the constant clock 4294967295 and a
receive that never yields data: timeout 1000 is nonzero, the loop
never returns `LW_RESULT_AGAIN`, and with zero remaining time and an
empty receive it returns `LW_RESULT_TIMEOUT`. -/
theorem lw_wait_blocking_timeout_witness :
    ((1000 : Nat) ≠ 0) ∧
    (lw_wait_for_next_response (fun _ => 4294967295) (fun _ => ((0 : Int), 0)) 5 1000
        ⟨initial_response, 0, 0, 0⟩ 3 ≠
      some (.LW_RESULT_AGAIN, ⟨initial_response, 0, 0, 0⟩)) ∧
    (((fun _ => ((0 : Int), 0)) (0 : Nat)).1 = 0 ∧
      (999 : Nat) ≤ (fun _ => (4294967295 : Nat)) (0 : Nat) % 4294967296) ∧
    (lw_wait_loop (fun _ => 4294967295) (fun _ => ((0 : Int), 0)) 5 1000 999
        ⟨initial_response, 0, 0, 0⟩ 1 =
      some (.LW_RESULT_TIMEOUT, ⟨initial_response, 1, 1, 0⟩)) :=
  ⟨by norm_num,
    (lw_wait_blocking_timeout (fun _ => 4294967295) (fun _ => ((0 : Int), 0)) 5 1000
      (by norm_num)).1 3 ⟨initial_response, 0, 0, 0⟩ ⟨initial_response, 0, 0, 0⟩,
    ⟨by decide, by decide⟩,
    (lw_wait_blocking_timeout (fun _ => 4294967295) (fun _ => ((0 : Int), 0)) 5 1000
      (by norm_num)).2 999 ⟨initial_response, 0, 0, 0⟩ 0 (by decide) (by decide)⟩

-- ----------------------------------------------------------------------------
-- Claim C8: non-blocking mode.
-- ----------------------------------------------------------------------------

/-- Whenever the wait loop returns `LW_RESULT_SUCCESS`, the guard held
on the final fed byte: the completed packet's command id matches the
expected one, or `LW_ANY_COMMAND` was requested. -/
theorem lw_wait_loop_success_match (clock : Nat → Nat) (recv : Nat → Int × Nat)
    (cid tm tt : Nat) :
    ∀ fuel st st', lw_wait_loop clock recv cid tm tt st fuel =
        some (.LW_RESULT_SUCCESS, st') →
      cid = LW_ANY_COMMAND ∨ st'.response.command_id = cid := by
  intro fuel
  induction fuel with
  | zero => intro st st' h; simp [lw_wait_loop] at h
  | succ n ih =>
      intro st st' h
      simp only [lw_wait_loop] at h
      repeat' split at h
      all_goals first
        | exact ih _ _ h
        | simp_all
      all_goals (
        rename_i hguard
        subst h
        rcases hguard.2 with hc | hc
        · exact Or.inl hc
        · exact Or.inr hc)

/-- Claim C8: in non-blocking mode (`timeout_ms = 0`),
`lw_wait_for_next_response` returns `LW_RESULT_AGAIN` immediately on
any iteration whose receive yields 0 bytes, returns `LW_RESULT_ERROR`
immediately on a receive yielding -1, keeps looping within the same
call while receives yield bytes that do not complete a matching packet
(draining available bytes, discarding mismatched completions), and
returns `LW_RESULT_SUCCESS` only when a completed packet's command id
matches the expected id or `LW_ANY_COMMAND` was requested. -/
theorem lw_wait_nonblocking (clock : Nat → Nat) (recv : Nat → Int × Nat) (cid : Nat) :
    (∀ tt st fuel, (recv st.recv_calls).1 = 0 →
        lw_wait_loop clock recv cid 0 tt st (fuel + 1) =
          some (.LW_RESULT_AGAIN, { st with recv_calls := st.recv_calls + 1 })) ∧
    (∀ tt st fuel, (recv st.recv_calls).1 = -1 →
        lw_wait_loop clock recv cid 0 tt st (fuel + 1) =
          some (.LW_RESULT_ERROR, { st with recv_calls := st.recv_calls + 1 })) ∧
    (∀ tt st fuel, 0 < (recv st.recv_calls).1 →
        ¬((lw_feed_response st.response (recv st.recv_calls).2).2 = .LW_RESULT_SUCCESS ∧
          (cid = LW_ANY_COMMAND ∨
            (lw_feed_response st.response (recv st.recv_calls).2).1.command_id = cid)) →
        lw_wait_loop clock recv cid 0 tt st (fuel + 1) =
          lw_wait_loop clock recv cid 0 tt
            { st with
              response := (lw_feed_response st.response (recv st.recv_calls).2).1
              recv_calls := st.recv_calls + 1 } fuel) ∧
    (∀ st fuel st', lw_wait_for_next_response clock recv cid 0 st fuel =
        some (.LW_RESULT_SUCCESS, st') →
      cid = LW_ANY_COMMAND ∨ st'.response.command_id = cid) := by
  refine ⟨?_, ?_, ?_, ?_⟩
  · intro tt st fuel hrecv
    simp only [lw_wait_loop]
    simp [hrecv]
  · intro tt st fuel hrecv
    simp only [lw_wait_loop]
    simp [hrecv]
  · intro tt st fuel hrecv hguard
    simp only [lw_wait_loop]
    have hne : ¬((recv st.recv_calls).1 = -1) := by omega
    simp [hne, hrecv, hguard]
  · intro st fuel st' h
    exact lw_wait_loop_success_match clock recv cid 0 0 fuel st st' h

/-- Witness for claim C8: with a receive that yields the two
mismatching-command packet bytes of the command-9 packet and then
nothing, the loop drains within one call and then reports
`LW_RESULT_AGAIN`; a fatal receive reports `LW_RESULT_ERROR`; a
completed command-5 packet reports `LW_RESULT_SUCCESS` with matching
id. -/
theorem lw_wait_nonblocking_witness :
    (((fun _ : Nat => ((0 : Int), (0 : Nat))) (0 : Nat)).1 = 0 ∧
      lw_wait_loop (fun _ => 0) (fun _ => ((0 : Int), 0)) 5 0 0
          ⟨initial_response, 0, 0, 0⟩ 1 =
        some (.LW_RESULT_AGAIN, ⟨initial_response, 0, 1, 0⟩)) ∧
    (((fun _ : Nat => ((-1 : Int), (0 : Nat))) (0 : Nat)).1 = -1 ∧
      lw_wait_loop (fun _ => 0) (fun _ => ((-1 : Int), 0)) 5 0 0
          ⟨initial_response, 0, 0, 0⟩ 1 =
        some (.LW_RESULT_ERROR, ⟨initial_response, 0, 1, 0⟩)) ∧
    (lw_wait_loop (fun _ => 0) (fun _ => ((1 : Int), 170)) 5 0 0
        ⟨initial_response, 0, 0, 0⟩ 3 =
      lw_wait_loop (fun _ => 0) (fun _ => ((1 : Int), 170)) 5 0 0
        ⟨(lw_feed_response initial_response 170).1, 0, 1, 0⟩ 2) ∧
    (lw_wait_for_next_response (fun _ => 0)
        (fun i => if i < 6 then ((1 : Int), [170, 64, 0, 5, 213, 207].getD i 0)
          else ((0 : Int), 0)) 5 0 ⟨initial_response, 0, 0, 0⟩ 7 =
        some (.LW_RESULT_SUCCESS,
          ⟨(lw_feed_list initial_response [170, 64, 0, 5, 213, 207]).1, 0, 6, 0⟩) ∧
      ((5 : Nat) = LW_ANY_COMMAND ∨
        (⟨(lw_feed_list initial_response [170, 64, 0, 5, 213, 207]).1, 0, 6, 0⟩ :
          device_state).response.command_id = 5)) :=
  ⟨⟨by decide,
      (lw_wait_nonblocking (fun _ => 0) (fun _ => ((0 : Int), 0)) 5).1 0
        ⟨initial_response, 0, 0, 0⟩ 0 (by decide)⟩,
    ⟨by decide,
      (lw_wait_nonblocking (fun _ => 0) (fun _ => ((-1 : Int), 0)) 5).2.1 0
        ⟨initial_response, 0, 0, 0⟩ 0 (by decide)⟩,
    (lw_wait_nonblocking (fun _ => 0) (fun _ => ((1 : Int), 170)) 5).2.2.1 0
      ⟨initial_response, 0, 0, 0⟩ 2 (by decide) (by decide),
    ⟨by decide,
      (lw_wait_nonblocking (fun _ => 0)
        (fun i => if i < 6 then ((1 : Int), [170, 64, 0, 5, 213, 207].getD i 0)
          else ((0 : Int), 0)) 5).2.2.2 ⟨initial_response, 0, 0, 0⟩ 7
        ⟨(lw_feed_list initial_response [170, 64, 0, 5, 213, 207]).1, 0, 6, 0⟩
        (by decide)⟩⟩

-- ----------------------------------------------------------------------------
-- Claim C9: the retry policy of `lw_send_request_get_response`.
-- ----------------------------------------------------------------------------

/-- The wait loop never calls the send callback. -/
theorem lw_wait_loop_send_calls (clock : Nat → Nat) (recv : Nat → Int × Nat)
    (cid tm tt : Nat) :
    ∀ fuel st r st', lw_wait_loop clock recv cid tm tt st fuel = some (r, st') →
      st'.send_calls = st.send_calls := by
  intro fuel
  induction fuel with
  | zero => intro st r st' h; simp [lw_wait_loop] at h
  | succ n ih =>
      intro st r st' h
      simp only [lw_wait_loop] at h
      repeat' split at h
      all_goals first
        | (have hrec := ih _ _ _ h; simp_all; done)
        | (simp_all; done)
        | (simp only [Option.some.injEq, Prod.mk.injEq] at h
           obtain ⟨h1, h2⟩ := h
           subst h2
           rfl)

/-- `lw_wait_for_next_response` never calls the send callback. -/
theorem lw_wait_send_calls (clock : Nat → Nat) (recv : Nat → Int × Nat)
    (cid tm : Nat) :
    ∀ fuel st r st', lw_wait_for_next_response clock recv cid tm st fuel =
        some (r, st') → st'.send_calls = st.send_calls := by
  intro fuel st r st' h
  simp only [lw_wait_for_next_response] at h
  split at h
  · have := lw_wait_loop_send_calls clock recv cid tm _ fuel _ r st' h
    simp_all
  · exact lw_wait_loop_send_calls clock recv cid tm _ fuel _ r st' h

/-- The attempts loop with a send that never fails and an await that
always times out: all attempts are used, `LW_RESULT_EXCEEDED_RETRIES`
is returned, and the send callback ran once per attempt. -/
theorem lw_send_request_attempts_exhaust (clock : Nat → Nat) (recv : Nat → Int × Nat)
    (send : Nat → Nat) (cid wait_fuel : Nat)
    (hsend : ∀ i, send i ≠ 0)
    (hwait : ∀ st : device_state,
      (lw_wait_for_next_response clock recv cid LW_RESPONSE_TIMEOUT_MS st
        wait_fuel).map Prod.fst = some .LW_RESULT_TIMEOUT) :
    ∀ attempts (st : device_state),
      (lw_send_request_attempts clock recv send cid wait_fuel st attempts).map
          (fun p => (p.1, p.2.send_calls)) =
        some (.LW_RESULT_EXCEEDED_RETRIES, st.send_calls + attempts) := by
  intro attempts
  induction attempts with
  | zero => intro st; simp [lw_send_request_attempts]
  | succ n ih =>
      intro st
      simp only [lw_send_request_attempts]
      rw [if_neg (hsend st.send_calls)]
      have hw := hwait { st with send_calls := st.send_calls + 1 }
      cases hcase : lw_wait_for_next_response clock recv cid LW_RESPONSE_TIMEOUT_MS
          { st with send_calls := st.send_calls + 1 } wait_fuel with
      | none => rw [hcase] at hw; simp at hw
      | some p =>
          rw [hcase] at hw
          have hp1 : p.1 = .LW_RESULT_TIMEOUT := by
            simpa using hw
          have hsc : p.2.send_calls = st.send_calls + 1 :=
            lw_wait_send_calls clock recv cid LW_RESPONSE_TIMEOUT_MS wait_fuel _ p.1 p.2
              (by rw [hcase])
          rw [show p = (p.1, p.2) from rfl, hp1]
          simp only [reduceCtorEq, reduceIte, if_false]
          rw [ih p.2, hsc]
          have : st.send_calls + 1 + n = st.send_calls + (n + 1) := by omega
          rw [this]

/-- Claim C9, amended: if the send callback always reports a nonzero
byte count and every await (with the fixed response timeout) ends in
`LW_RESULT_TIMEOUT` — i.e. the receive behavior neither reports a
fatal error nor lets the decoder complete a packet matching the
request's command id, and each await terminates — then
`lw_send_request_get_response` returns `LW_RESULT_EXCEEDED_RETRIES`
after performing exactly `LW_REQUEST_RETRIES` (4) send attempts; and
on any attempt where send reports 0 bytes — whatever device state has
been reached and however many of the attempts remain — it returns
`LW_RESULT_ERROR` immediately, without further attempts (stated on the
attempts loop for an arbitrary positive remaining-attempts count, and
on `lw_send_request_get_response` itself for the first attempt). -/
theorem lw_send_request_retry_policy (clock : Nat → Nat) (recv : Nat → Int × Nat)
    (send : Nat → Nat) (cid wait_fuel : Nat) :
    ((∀ i, send i ≠ 0) →
      (∀ st : device_state,
        (lw_wait_for_next_response clock recv cid LW_RESPONSE_TIMEOUT_MS st
          wait_fuel).map Prod.fst = some .LW_RESULT_TIMEOUT) →
      ∀ st : device_state,
        (lw_send_request_get_response clock recv send cid st wait_fuel).map
            (fun p => (p.1, p.2.send_calls)) =
          some (.LW_RESULT_EXCEEDED_RETRIES, st.send_calls + LW_REQUEST_RETRIES)) ∧
    (∀ (st : device_state) (attempts : Nat), send st.send_calls = 0 →
      lw_send_request_attempts clock recv send cid wait_fuel st (attempts + 1) =
        some (.LW_RESULT_ERROR, { st with send_calls := st.send_calls + 1 })) ∧
    (∀ st : device_state, send st.send_calls = 0 →
      lw_send_request_get_response clock recv send cid st wait_fuel =
        some (.LW_RESULT_ERROR, { st with send_calls := st.send_calls + 1 })) := by
  refine ⟨?_, ?_, ?_⟩
  · intro hsend hwait st
    exact lw_send_request_attempts_exhaust clock recv send cid wait_fuel hsend hwait
      LW_REQUEST_RETRIES st
  · intro st attempts hsend0
    simp only [lw_send_request_attempts]
    rw [if_pos hsend0]
  · intro st hsend0
    show lw_send_request_attempts clock recv send cid wait_fuel st (3 + 1) = _
    simp only [lw_send_request_attempts]
    rw [if_pos hsend0]

/-- Claim C9, counterexample: a transport whose send always reports 1
byte and whose receive always reports a fatal error (-1) never lets
the decoder complete any packet, yet `lw_send_request_get_response`
returns `LW_RESULT_ERROR` after a single send attempt — not
`LW_RESULT_EXCEEDED_RETRIES` after 4. -/
theorem lw_send_request_error_on_fatal_receive :
    ((fun _ : Nat => (1 : Nat)) 0 ≠ 0) ∧
    ((lw_wait_for_next_response (fun _ => 0) (fun _ => ((-1 : Int), 0)) 5 1000
        ⟨initial_response, 0, 0, 1⟩ 1).map Prod.fst = some .LW_RESULT_ERROR) ∧
    (lw_send_request_get_response (fun _ => 0) (fun _ => ((-1 : Int), 0)) (fun _ => 1) 5
        ⟨initial_response, 0, 0, 0⟩ 1 =
      some (.LW_RESULT_ERROR, ⟨initial_response, 2, 1, 1⟩)) := by
  refine ⟨by norm_num, by decide, by decide⟩

/-- Witness for claim C9 with the constant clock 4294967295 (every
await immediately times out) and a receive that never yields data:
with a send that always reports 1 byte, four sends then exceeded
retries; with a send reporting 0 on its second call, a run of
`lw_send_request_get_response` reaches the second attempt in device
state `⟨initial_response, 2, 1, 1⟩` and the attempts loop (3 attempts
remaining) returns an immediate error there, its send counter
advancing only once; with a send reporting 0 at once, an immediate
error on the first attempt. -/
theorem lw_send_request_retry_policy_witness :
    ((lw_send_request_get_response (fun _ => 4294967295) (fun _ => ((0 : Int), 0))
        (fun _ => 1) 5 ⟨initial_response, 0, 0, 0⟩ 1).map
          (fun p => (p.1, p.2.send_calls)) =
      some (.LW_RESULT_EXCEEDED_RETRIES, 0 + LW_REQUEST_RETRIES)) ∧
    (lw_send_request_get_response (fun _ => 4294967295) (fun _ => ((0 : Int), 0))
        (fun i => if i = 0 then 1 else 0) 5 ⟨initial_response, 0, 0, 0⟩ 1 =
      some (.LW_RESULT_ERROR, ⟨initial_response, 2, 1, 2⟩)) ∧
    (lw_send_request_attempts (fun _ => 4294967295) (fun _ => ((0 : Int), 0))
        (fun i => if i = 0 then 1 else 0) 5 1 ⟨initial_response, 2, 1, 1⟩ 3 =
      some (.LW_RESULT_ERROR, ⟨initial_response, 2, 1, 2⟩)) ∧
    (lw_send_request_get_response (fun _ => 4294967295) (fun _ => ((0 : Int), 0))
        (fun _ => 0) 5 ⟨initial_response, 0, 0, 0⟩ 1 =
      some (.LW_RESULT_ERROR, ⟨initial_response, 0, 0, 1⟩)) :=
  ⟨(lw_send_request_retry_policy (fun _ => 4294967295) (fun _ => ((0 : Int), 0))
      (fun _ => 1) 5 1).1 (fun i => by norm_num)
      (fun st => by simp [lw_wait_for_next_response, lw_wait_loop, LW_RESPONSE_TIMEOUT_MS])
      ⟨initial_response, 0, 0, 0⟩,
    by decide,
    (lw_send_request_retry_policy (fun _ => 4294967295) (fun _ => ((0 : Int), 0))
      (fun i => if i = 0 then 1 else 0) 5 1).2.1 ⟨initial_response, 2, 1, 1⟩ 2
      (by decide),
    (lw_send_request_retry_policy (fun _ => 4294967295) (fun _ => ((0 : Int), 0))
      (fun _ => 0) 5 1).2.2 ⟨initial_response, 0, 0, 0⟩ rfl⟩
